import Mathlib

/-!
Verification of the cash-flow analyzer (`src/cashflow.py`).

The script works on a pandas DataFrame with canonical columns
`date`, `category`, `amount` (validated by the loader).  We embed such a
table as a `List Tx`; monetary values are modelled as rationals.
Wall-clock month labels (strings derived from `datetime.now()`) are
abstracted to the projection offset `i`; the number of days between
`datetime.now()` and the target date is abstracted to an integer
parameter `days_to_target`.
-/

namespace Cashflow

/-- A calendar date (validity of the day-of-month is irrelevant to the
analyzer, which only compares dates and truncates them to months). -/
structure Date where
  year : Int
  month : Int
  day : Int
deriving DecidableEq

/-- One validated transaction row: the canonical `(date, category, amount)`
triple produced by the loader. -/
structure Tx where
  date : Date
  category : String
  amount : ℚ
deriving DecidableEq

/-- Embedding of `df['date'].dt.to_period('M')`: a year-month key. -/
abbrev MonthKey := Int × Int

def monthKey (d : Date) : MonthKey := (d.year, d.month)

/-- One row of the DataFrame returned by `calculate_monthly_cashflow`. -/
structure MonthlyRow where
  month : MonthKey
  income : ℚ
  expenses : ℚ
  net_cashflow : ℚ
deriving DecidableEq

/-- Chronological order on month keys (pandas sorts `groupby` keys). -/
def keyLe (a b : MonthKey) : Prop := a.1 < b.1 ∨ (a.1 = b.1 ∧ a.2 ≤ b.2)

instance : DecidableRel keyLe := fun a b => by
  unfold keyLe; infer_instance

/-- Series mean, as used by pandas `.mean()` on a non-empty column. -/
def mean (l : List ℚ) : ℚ := l.sum / l.length

/-- The grouped aggregation of `calculate_monthly_cashflow`
(`cashflow.py` lines 126-145): group the amounts by month and take
`income = x[x > 0].sum()`, `expenses = -x[x < 0].sum()`,
`net_cashflow = x.sum()`, one row per distinct month, months ascending. -/
def monthlyAgg (rows : List Tx) : List MonthlyRow :=
  let keys := List.insertionSort keyLe ((rows.map (fun t => monthKey t.date)).dedup)
  keys.map (fun k =>
    let amts := (rows.filter (fun t => monthKey t.date = k)).map (fun t => t.amount)
    { month := k
      income := (amts.filter (fun a => 0 < a)).sum
      expenses := -((amts.filter (fun a => a < 0)).sum)
      net_cashflow := amts.sum })

/-- The ledger DataFrame as the analyzer sees it: the canonical columns
plus the `month` column, which is absent until `calculate_monthly_cashflow`
assigns it (`df['month'] = df['date'].dt.to_period('M')`). -/
structure LedgerState where
  rows : List Tx
  monthCol : Option (List MonthKey)
deriving DecidableEq

/-- Embedding of `calculate_monthly_cashflow(df)` in state-passing form: the function
assigns the `month` column on its argument DataFrame in place, then
returns the grouped aggregate.  The pair is (state of `df` after the
call, returned DataFrame). -/
def calculate_monthly_cashflow (st : LedgerState) : LedgerState × List MonthlyRow :=
  ({ st with monthCol := some (st.rows.map (fun t => monthKey t.date)) },
   monthlyAgg st.rows)

/-- Running cumulative sum with accumulator, as computed by `.cumsum()`. -/
def cumsumFrom (acc : ℚ) : List ℚ → List ℚ
  | [] => []
  | x :: xs => (acc + x) :: cumsumFrom (acc + x) xs

/-- pandas `.cumsum()` on a column. -/
def cumsum (l : List ℚ) : List ℚ := cumsumFrom 0 l

/-- Chronological order on transactions, used by `df.sort_values('date')`. -/
def dateLe (a b : Tx) : Prop :=
  a.date.year < b.date.year
    ∨ (a.date.year = b.date.year
        ∧ (a.date.month < b.date.month
            ∨ (a.date.month = b.date.month ∧ a.date.day ≤ b.date.day)))

instance : DecidableRel dateLe := fun a b => by
  unfold dateLe; infer_instance

/-- Embedding of `calculate_total_savings(df)` (`cashflow.py` lines 188-204): sort the
rows by date (`sort_values` returns a copy), take the running cumulative
sum of `amount`, read its final value (`.iloc[-1]`, modelled with default
0, only ever used on a non-empty ledger) and floor it at zero. -/
def calculate_total_savings (rows : List Tx) : ℚ :=
  let df_sorted := List.insertionSort dateLe rows
  let cumulative_net := cumsum (df_sorted.map (fun t => t.amount))
  max 0 (cumulative_net.getLastD 0)

/-- Return value of `calculate_emergency_runway`: `float('inf')` or a
finite number of months. -/
inductive Runway where
  | inf : Runway
  | months (m : ℚ) : Runway
deriving DecidableEq

/-- Embedding of `calculate_emergency_runway(monthly_cashflow, savings)`
(`cashflow.py` lines 214-231). -/
def calculate_emergency_runway (monthly_cashflow : List MonthlyRow) (savings : ℚ) : Runway :=
  let avg_monthly_expenses := mean (monthly_cashflow.map (fun r => r.expenses))
  if avg_monthly_expenses = 0 then Runway.inf
  else Runway.months (savings / avg_monthly_expenses)

/-- One projected row.  The source labels the row with the wall-clock
string `(now + offset months).strftime('%Y-%m')`; we keep the offset. -/
structure ForecastRow where
  monthOffset : ℕ
  income : ℚ
  expenses : ℚ
  net_cashflow : ℚ
deriving DecidableEq

/-- Embedding of `project_future_cashflow` with arguments `(monthly_cashflow, months_ahead, required_savings)`
(`cashflow.py` lines 147-181): empty history returns an empty frame;
otherwise each of the `months_ahead` rows carries the historical average
income, the average expenses increased by `required_savings`, and the
recomputed net.  (The source also computes `avg_net`, which it never
uses.) -/
def project_future_cashflow (monthly_cashflow : List MonthlyRow) (months_ahead : ℕ)
    (required_savings : ℚ) : List ForecastRow :=
  if monthly_cashflow = [] then []
  else
    let avg_income := mean (monthly_cashflow.map (fun r => r.income))
    let avg_expenses := mean (monthly_cashflow.map (fun r => r.expenses))
    (List.range months_ahead).map (fun i =>
      { monthOffset := i + 1
        income := avg_income
        expenses := avg_expenses + required_savings
        net_cashflow := avg_income - (avg_expenses + required_savings) })

/-- The dictionary returned by `plan_savings_goal` on success. -/
structure SavingsPlan where
  required_monthly_savings : ℚ
  achievable : Bool
  months_to_target : ℚ
  updated_cashflow : List ForecastRow
deriving DecidableEq

/-- Result type of `plan_savings_goal`: it returns either an error dictionary
(`{"error": ...}`) or the plan dictionary; no exception is raised for a
past target date. -/
inductive PlanResult where
  | error (msg : String)
  | ok (plan : SavingsPlan)
deriving DecidableEq

/-- Embedding of `plan_savings_goal(goal_amount, target_date_str, monthly_cashflow)`
(`cashflow.py` lines 247-283).  `days_to_target` abstracts
`(target_date - datetime.now()).days`.  `30.44` is the rational
`3044/100`.  Python `int()` truncates toward zero; `months_to_target` is
positive on the branch where it is truncated, so truncation is `⌊·⌋`. -/
def plan_savings_goal (goal_amount : ℚ) (days_to_target : ℤ)
    (monthly_cashflow : List MonthlyRow) : PlanResult :=
  if days_to_target ≤ 0 then PlanResult.error "Target date is in the past"
  else
    let months_to_target : ℚ := (days_to_target : ℚ) / (3044 / 100)
    let required_monthly_savings := goal_amount / months_to_target
    let avg_net_cashflow := mean (monthly_cashflow.map (fun r => r.net_cashflow))
    PlanResult.ok
      { required_monthly_savings := required_monthly_savings
        achievable := decide (required_monthly_savings ≤ avg_net_cashflow)
        months_to_target := months_to_target
        updated_cashflow :=
          project_future_cashflow monthly_cashflow
            (Int.toNat ⌊months_to_target⌋) required_monthly_savings }

/-- One row of the category-breakdown table. -/
structure CatRow where
  category : String
  amount : ℚ
  percentage : ℚ
deriving DecidableEq

/-- Round to the nearest integer, ties to the even integer, as numpy
`round` does on an exact tie. -/
def roundHalfEven (q : ℚ) : ℤ :=
  if q - ⌊q⌋ < 1 / 2 then ⌊q⌋
  else if 1 / 2 < q - ⌊q⌋ then ⌊q⌋ + 1
  else if ⌊q⌋ % 2 = 0 then ⌊q⌋ else ⌊q⌋ + 1

/-- numpy `.round(2)`: round to 2 decimal places. -/
def round2 (q : ℚ) : ℚ := (roundHalfEven (q * 100) : ℚ) / 100

/-- Net total of one category: `df.groupby('category')['amount'].sum()`
evaluated at one category. -/
def catSum (rows : List Tx) (c : String) : ℚ :=
  ((rows.filter (fun t => t.category = c)).map (fun t => t.amount)).sum

/-- Ascending order on the summed totals, for `.sort_values()`. -/
def totalLe (a b : String × ℚ) : Prop := a.2 ≤ b.2

instance : DecidableRel totalLe := fun a b => by
  unfold totalLe; infer_instance

/-- Embedding of `df.groupby('category')['amount'].sum().sort_values()`: one
`(category, net total)` pair per distinct category, sorted by total
ascending.  (pandas leaves the relative order of equal totals
unspecified — its default sort is not stable — so any deterministic
order among ties is a faithful refinement.) -/
def categoryTotals (rows : List Tx) : List (String × ℚ) :=
  let cats := (rows.map (fun t => t.category)).dedup
  List.insertionSort totalLe (cats.map (fun c => (c, catSum rows c)))

/-- The `expenses_only` series: keep the categories with negative net total and
negate them to positive magnitudes. -/
def expensesOnly (rows : List Tx) : List (String × ℚ) :=
  ((categoryTotals rows).filter (fun p => p.2 < 0)).map (fun p => (p.1, -p.2))

/-- Embedding of `calculate_category_breakdown(df)` (`cashflow.py` lines 285-302). -/
def calculate_category_breakdown (rows : List Tx) : List CatRow :=
  let total_expenses := ((expensesOnly rows).map (fun p => p.2)).sum
  (expensesOnly rows).map (fun p =>
    { category := p.1
      amount := p.2
      percentage := round2 (p.2 / total_expenses * 100) })

/-- One row of the what-if projection. -/
structure WhatIfRow where
  monthOffset : ℕ
  income : ℚ
  expenses : ℚ
  net_cashflow : ℚ
  cumulative_savings : ℚ
deriving DecidableEq

/-- Embedding of `result_df['cumulative_savings'] = result_df['net_cashflow'].cumsum()`:
overwrite the cumulative column with the running sum of the net column. -/
def setCumulative (rows : List WhatIfRow) : List WhatIfRow :=
  List.zipWith (fun r c => { r with cumulative_savings := c })
    rows (cumsum (rows.map (fun r => r.net_cashflow)))

/-- The `if/elif/else` on `scenario_type` (`cashflow.py` lines 328-336):
adjusted `(income, expenses)` for one projected month.  It does not
depend on the loop index, so the source's per-iteration branch is
hoisted; every `scenario_type` other than the two named ones takes the
trailing `else` (`both`) branch. -/
def adjustedFigures (scenario_type : String) (scenario_amount avg_income avg_expenses : ℚ) :
    ℚ × ℚ :=
  if scenario_type = "decrease_spending" then
    (avg_income, avg_expenses - scenario_amount)
  else if scenario_type = "increase_savings" then
    (avg_income, avg_expenses + scenario_amount)
  else
    (avg_income + scenario_amount / 2, avg_expenses - scenario_amount / 2)

/-- Embedding of `run_what_if_scenario` with arguments `(monthly_cashflow,
months_projection, scenario_type, scenario_amount)` (`cashflow.py` lines 304-350). -/
def run_what_if_scenario (monthly_cashflow : List MonthlyRow) (months_projection : ℕ)
    (scenario_type : String) (scenario_amount : ℚ) : List WhatIfRow :=
  let avg_income := mean (monthly_cashflow.map (fun r => r.income))
  let avg_expenses := mean (monthly_cashflow.map (fun r => r.expenses))
  let adjusted := adjustedFigures scenario_type scenario_amount avg_income avg_expenses
  let base := (List.range months_projection).map (fun i =>
    { monthOffset := i + 1
      income := adjusted.1
      expenses := adjusted.2
      net_cashflow := adjusted.1 - adjusted.2
      cumulative_savings := 0 : WhatIfRow })
  setCumulative base

/-- The closed form of a what-if projection whose adjusted income and
expenses are `inc` and `exp2`: the i-th row repeats the adjusted figures
and accumulates the constant net. -/
def whatIfClosedForm (n : ℕ) (inc exp2 : ℚ) : List WhatIfRow :=
  (List.range n).map (fun i =>
    { monthOffset := i + 1
      income := inc
      expenses := exp2
      net_cashflow := inc - exp2
      cumulative_savings := ((i : ℚ) + 1) * (inc - exp2) })

/-- The static alias table of the loader (`cashflow.py` lines 60-64). -/
def column_aliases : List (String × List String) :=
  [("date", ["date", "transaction_date", "trans_date"]),
   ("category", ["category", "description", "type", "transaction_type"]),
   ("amount", ["amount", "value", "transaction_amount"])]

/-- Embedding of `.str.lower()` on one column name: lower-case each character. -/
def lowerStr (s : String) : String := String.mk (s.toList.map Char.toLower)

/-- Embedding of `.str.strip()` on one column name: drop leading and trailing
whitespace. -/
def stripStr (s : String) : String :=
  String.mk
    (((s.toList.dropWhile Char.isWhitespace).reverse.dropWhile Char.isWhitespace).reverse)

/-- Column-name normalization applied before alias resolution
(`df.columns.str.lower().str.strip()`, lines 50-51). -/
def normalizeCols (cols : List String) : List String :=
  cols.map (fun c => stripStr (lowerStr c))

/-- The user-supplied fallback name is usable iff it is non-empty and
among the table's columns (`if alt_col and alt_col in df.columns`). -/
def viableFallback (cols : List String) (alt : String) : Prop :=
  alt ≠ "" ∧ alt ∈ cols

instance (cols : List String) (alt : String) : Decidable (viableFallback cols alt) := by
  unfold viableFallback; infer_instance

/-- Alias resolution loop (`cashflow.py` lines 66-82): for each required
field in order, take the first alias present among the columns; failing
that ask the caller (`fallback`); if that name is empty or absent, stop
with the missing-column error.  Returns the rename mapping. -/
def resolveGo (cols : List String) (fallback : String → String) :
    List (String × List String) → Except String (List (String × String))
  | [] => Except.ok []
  | (field, aliases) :: rest =>
    match aliases.find? (fun a => decide (a ∈ cols)) with
    | some al =>
      match resolveGo cols fallback rest with
      | Except.error e => Except.error e
      | Except.ok m => Except.ok (if al = field then m else (al, field) :: m)
    | none =>
      let alt := fallback field
      if viableFallback cols alt then
        match resolveGo cols fallback rest with
        | Except.error e => Except.error e
        | Except.ok m => Except.ok ((alt, field) :: m)
      else Except.error ("Required column '" ++ field ++ "' is missing.")

/-- Resolution of the three required fields against the alias table. -/
def resolveColumns (cols : List String) (fallback : String → String) :
    Except String (List (String × String)) :=
  resolveGo cols fallback column_aliases

/-- The load-then-aggregate pipeline: alias resolution over the
normalized column names must succeed before `calculate_monthly_cashflow`
runs (the script raises and exits on the error branch). -/
def load_and_aggregate (rawCols : List String) (fallback : String → String)
    (rows : List Tx) : Except String (List MonthlyRow) :=
  match resolveColumns (normalizeCols rawCols) fallback with
  | Except.error e => Except.error e
  | Except.ok _ => Except.ok (monthlyAgg rows)

/-- A field of the alias table fails on a table iff none of its aliases
is a column and the fallback name for it is not viable. -/
def aliasFail (cols : List String) (fallback : String → String)
    (p : String × List String) : Prop :=
  (∀ a ∈ p.2, a ∉ cols) ∧ ¬ viableFallback cols (fallback p.1)

instance (cols : List String) (fallback : String → String) (p : String × List String) :
    Decidable (aliasFail cols fallback p) := by
  unfold aliasFail; infer_instance

/-- Embedding of `calculate_total_savings` in state-passing form: `sort_values`
returns a copy and the `cumulative_net` column is assigned on that copy,
so the argument DataFrame is left unchanged. -/
def calculate_total_savings_st (st : LedgerState) : LedgerState × ℚ :=
  (st, calculate_total_savings st.rows)

/-- Embedding of `calculate_category_breakdown` in state-passing form: the function
only reads `df`. -/
def calculate_category_breakdown_st (st : LedgerState) : LedgerState × List CatRow :=
  (st, calculate_category_breakdown st.rows)

/-- Embedding of `calculate_emergency_runway` in state-passing form: the function only
reads the aggregate frame. -/
def calculate_emergency_runway_st (hist : List MonthlyRow) (savings : ℚ) :
    List MonthlyRow × Runway :=
  (hist, calculate_emergency_runway hist savings)

/-- Embedding of `project_future_cashflow` in state-passing form: the function only
reads the aggregate frame. -/
def project_future_cashflow_st (hist : List MonthlyRow) (n : ℕ) (req : ℚ) :
    List MonthlyRow × List ForecastRow :=
  (hist, project_future_cashflow hist n req)

/-- Embedding of `plan_savings_goal` in state-passing form: the function only reads
the aggregate frame. -/
def plan_savings_goal_st (goal : ℚ) (days : ℤ) (hist : List MonthlyRow) :
    List MonthlyRow × PlanResult :=
  (hist, plan_savings_goal goal days hist)

/-- Embedding of `run_what_if_scenario` in state-passing form: the function only reads
the aggregate frame. -/
def run_what_if_scenario_st (hist : List MonthlyRow) (n : ℕ) (s : String) (amt : ℚ) :
    List MonthlyRow × List WhatIfRow :=
  (hist, run_what_if_scenario hist n s amt)

/-- Example ledger: the worked example of the specification. -/
def exLedger : List Tx :=
  [⟨⟨2024, 1, 5⟩, "Job", 1000⟩,
   ⟨⟨2024, 1, 20⟩, "Food", -200⟩,
   ⟨⟨2024, 2, 10⟩, "Job", 1000⟩,
   ⟨⟨2024, 2, 15⟩, "Rent", -500⟩]

/-- Example ledger DataFrame before any aggregation: no `month` column. -/
def exState : LedgerState := { rows := exLedger, monthCol := none }

/-- Example historical aggregate table. -/
def exMonthly : List MonthlyRow :=
  [⟨(2024, 1), 1000, 200, 800⟩, ⟨(2024, 2), 1000, 500, 500⟩]

/-- Splitting a sum by sign: the positive part plus the negative part of a
list of rationals sums to the whole (zeros contribute nothing). -/
theorem sum_filter_pos_add_sum_filter_neg (l : List ℚ) :
    (l.filter (fun a => 0 < a)).sum + (l.filter (fun a => a < 0)).sum = l.sum := by
  induction l with
  | nil => simp
  | cons x xs ih =>
    rcases lt_trichotomy x 0 with hx | hx | hx
    · have h1 : ¬ (0 < x) := not_lt.mpr hx.le
      simp only [List.filter_cons, List.sum_cons]
      rw [if_neg (by simpa using h1), if_pos (by simpa using hx)]
      simp only [List.sum_cons]
      linarith [ih]
    · subst hx
      simp only [List.filter_cons, List.sum_cons]
      rw [if_neg (by simp), if_neg (by simp)]
      linarith [ih]
    · have h1 : ¬ (x < 0) := not_lt.mpr hx.le
      simp only [List.filter_cons, List.sum_cons]
      rw [if_pos (by simpa using hx), if_neg (by simpa using h1)]
      simp only [List.sum_cons]
      linarith [ih]

/-- Pointwise addition distributes over a mapped sum. -/
theorem sum_map_add_distrib {α : Type} (l : List α) (f g : α → ℚ) :
    (l.map (fun x => f x + g x)).sum = (l.map f).sum + (l.map g).sum := by
  induction l with
  | nil => simp
  | cons x xs ih =>
    simp only [List.map_cons, List.sum_cons, ih]
    ring

/-- Summing `if k = key x then v else 0` over a duplicate-free list of keys
containing `key x` yields `v`. -/
theorem sum_map_ite_eq {β : Type} [DecidableEq β] (keys : List β) (k : β) (v : ℚ)
    (hnd : keys.Nodup) (hk : k ∈ keys) :
    (keys.map (fun k2 => if k = k2 then v else 0)).sum = v := by
  induction keys with
  | nil => cases hk
  | cons b bs ih =>
    rcases List.mem_cons.mp hk with hb | hb
    · subst hb
      have hnotin : k ∉ bs := (List.nodup_cons.mp hnd).1
      have hzero : (bs.map (fun k2 => if k = k2 then v else 0)).sum = 0 := by
        apply List.sum_eq_zero
        intro x hx
        rcases List.mem_map.mp hx with ⟨b2, hb2, hb2eq⟩
        have : k ≠ b2 := fun h => hnotin (h ▸ hb2)
        simp [← hb2eq, this]
      simp [hzero]
    · have hkb : k ≠ b := by
        intro h
        exact (List.nodup_cons.mp hnd).1 (h ▸ hb)
      simp only [List.map_cons, List.sum_cons, if_neg hkb, zero_add]
      exact ih (List.nodup_cons.mp hnd).2 hb

/-- Partition lemma: summing a function over the groups of a group-by
(one group per key, keys duplicate-free and covering) equals summing it
over the original list. -/
theorem sum_groups {α β : Type} [DecidableEq β] (key : α → β) (f : α → ℚ)
    (l : List α) (keys : List β) (hnd : keys.Nodup)
    (hcov : ∀ x ∈ l, key x ∈ keys) :
    (keys.map (fun k => ((l.filter (fun x => key x = k)).map f).sum)).sum
      = (l.map f).sum := by
  induction l with
  | nil => simp
  | cons x xs ih =>
    have hx : key x ∈ keys := hcov x (List.mem_cons_self x xs)
    have hcov2 : ∀ y ∈ xs, key y ∈ keys := fun y hy => hcov y (List.mem_cons_of_mem x hy)
    have hsplit :
        (keys.map (fun k => (((x :: xs).filter (fun y => key y = k)).map f).sum))
          = keys.map (fun k =>
              (if key x = k then f x else 0)
                + ((xs.filter (fun y => key y = k)).map f).sum) := by
      apply List.map_congr_left
      intro k _
      by_cases hxk : key x = k
      · simp [List.filter_cons, hxk]
      · simp [List.filter_cons, hxk]
    rw [hsplit,
      sum_map_add_distrib keys (fun k => if key x = k then f x else 0)
        (fun k => ((xs.filter (fun y => key y = k)).map f).sum),
      sum_map_ite_eq keys (key x) (f x) hnd hx, ih hcov2]
    simp

/-- The month keys used by `monthlyAgg` are duplicate-free and cover every
transaction's month. -/
theorem monthlyAgg_keys_sound (rows : List Tx) :
    (List.insertionSort keyLe ((rows.map (fun t => monthKey t.date)).dedup)).Nodup
      ∧ ∀ t ∈ rows,
          monthKey t.date
            ∈ List.insertionSort keyLe ((rows.map (fun t => monthKey t.date)).dedup) := by
  constructor
  · exact (List.perm_insertionSort keyLe _).nodup_iff.mpr (List.nodup_dedup _)
  · intro t ht
    rw [List.mem_insertionSort, List.mem_dedup]
    exact List.mem_map.mpr ⟨t, ht, rfl⟩

/-- C1 (conservation law): for every validated ledger, the sum of
`net_cashflow` over the rows returned by `calculate_monthly_cashflow`
equals the sum of all transaction amounts, and each month's
`net_cashflow` equals its `income` minus its `expenses` (the sum of that
month's amounts). -/
theorem conservation_law (st : LedgerState) :
    (((calculate_monthly_cashflow st).2).map (fun r => r.net_cashflow)).sum
        = (st.rows.map (fun t => t.amount)).sum
      ∧ ∀ r ∈ (calculate_monthly_cashflow st).2,
          r.net_cashflow = r.income - r.expenses := by
  obtain ⟨hnd, hcov⟩ := monthlyAgg_keys_sound st.rows
  constructor
  · show ((monthlyAgg st.rows).map (fun r => r.net_cashflow)).sum = _
    unfold monthlyAgg
    rw [List.map_map]
    exact sum_groups (fun t => monthKey t.date) (fun t => t.amount) st.rows _ hnd hcov
  · intro r hr
    rcases List.mem_map.mp hr with ⟨k, _, hk⟩
    subst hk
    simp only
    rw [sub_neg_eq_add, sum_filter_pos_add_sum_filter_neg]

/-- C3 counterexample: `calculate_monthly_cashflow` does not leave the
ledger DataFrame unchanged — `df['month'] = df['date'].dt.to_period('M')`
adds a `month` column to its argument, as witnessed on a concrete
one-transaction ledger with no `month` column. -/
theorem aggregator_mutates_ledger :
    ¬ ((calculate_monthly_cashflow exState).1 = exState) := by decide

/-- C3 amended: every operation leaves its input unchanged except
`calculate_monthly_cashflow`, which adds a `month` column (the
transactions' year-month keys) to the ledger DataFrame while leaving the
validated transaction rows themselves unchanged. -/
theorem frame_conditions (st : LedgerState) (hist : List MonthlyRow)
    (n : ℕ) (s : String) (amt goal savings : ℚ) (days : ℤ) :
    (calculate_monthly_cashflow st).1
        = { st with monthCol := some (st.rows.map (fun t => monthKey t.date)) }
      ∧ (calculate_monthly_cashflow st).1.rows = st.rows
      ∧ (calculate_total_savings_st st).1 = st
      ∧ (calculate_category_breakdown_st st).1 = st
      ∧ (calculate_emergency_runway_st hist savings).1 = hist
      ∧ (project_future_cashflow_st hist n amt).1 = hist
      ∧ (plan_savings_goal_st goal days hist).1 = hist
      ∧ (run_what_if_scenario_st hist n s amt).1 = hist :=
  ⟨rfl, rfl, rfl, rfl, rfl, rfl, rfl, rfl⟩

/-- C5: for a non-empty aggregate table, the runway is `inf` exactly when
the mean of the `expenses` column is zero, and otherwise it is the finite
value `savings / avg_expenses`. -/
theorem emergency_runway_spec (mc : List MonthlyRow) (savings : ℚ) (h : mc ≠ []) :
    (calculate_emergency_runway mc savings = Runway.inf
        ↔ mean (mc.map (fun r => r.expenses)) = 0)
      ∧ (mean (mc.map (fun r => r.expenses)) ≠ 0 →
          calculate_emergency_runway mc savings
            = Runway.months (savings / mean (mc.map (fun r => r.expenses)))) := by
  unfold calculate_emergency_runway
  by_cases hz : mean (mc.map (fun r => r.expenses)) = 0 <;> simp [hz]

/-- C5 witness at the specification's worked example. -/
theorem emergency_runway_spec_witness :
    exMonthly ≠ []
      ∧ ((calculate_emergency_runway exMonthly 1300 = Runway.inf
            ↔ mean (exMonthly.map (fun r => r.expenses)) = 0)
          ∧ (mean (exMonthly.map (fun r => r.expenses)) ≠ 0 →
              calculate_emergency_runway exMonthly 1300
                = Runway.months (1300 / mean (exMonthly.map (fun r => r.expenses))))) :=
  ⟨by decide, emergency_runway_spec exMonthly 1300 (by decide)⟩

/-- The last entry of a running cumulative sum started at `acc` is `acc`
plus the list's total, whatever the default. -/
theorem cumsumFrom_getLastD :
    ∀ (l : List ℚ) (acc d : ℚ), l ≠ [] → (cumsumFrom acc l).getLastD d = acc + l.sum
  | [], _, _, h => absurd rfl h
  | [x], acc, d, _ => by simp [cumsumFrom]
  | x :: y :: t, acc, d, _ => by
    have ih := cumsumFrom_getLastD (y :: t) (acc + x) (acc + x) (by simp)
    simp only [cumsumFrom, List.getLastD_cons] at ih ⊢
    rw [ih]
    simp only [List.sum_cons]
    ring

/-- The value of `calculate_total_savings` on a non-empty ledger. -/
theorem calculate_total_savings_eq (rows : List Tx) (h : rows ≠ []) :
    calculate_total_savings rows = max 0 ((rows.map (fun t => t.amount)).sum) := by
  simp only [calculate_total_savings, cumsum]
  have hperm : List.Perm (List.insertionSort dateLe rows) rows := List.perm_insertionSort dateLe rows
  have hne : List.insertionSort dateLe rows ≠ [] := by
    intro hnil
    exact h (List.eq_nil_of_length_eq_zero (by rw [← hperm.length_eq, hnil, List.length_nil]))
  have hne2 : (List.insertionSort dateLe rows).map (fun t => t.amount) ≠ [] := by
    simpa using hne
  rw [cumsumFrom_getLastD _ 0 0 hne2, zero_add, ((hperm.map (fun t => t.amount)).sum_eq)]

/-- C6: on every non-empty ledger, total savings is the final cumulative
sum after date sorting, which equals `max 0 (sum of all amounts)`; it is
never negative, and it is invariant under permuting the rows. -/
theorem total_savings_spec (rows : List Tx) (h : rows ≠ []) :
    calculate_total_savings rows = max 0 ((rows.map (fun t => t.amount)).sum)
      ∧ 0 ≤ calculate_total_savings rows
      ∧ ∀ rows2 : List Tx, List.Perm rows rows2 →
          calculate_total_savings rows2 = calculate_total_savings rows := by
  refine ⟨calculate_total_savings_eq rows h, ?_, ?_⟩
  · rw [calculate_total_savings_eq rows h]
    exact le_max_left 0 _
  · intro rows2 hp
    have h2 : rows2 ≠ [] := by
      intro hnil
      exact h (List.eq_nil_of_length_eq_zero (by rw [hp.length_eq, hnil, List.length_nil]))
    rw [calculate_total_savings_eq rows h, calculate_total_savings_eq rows2 h2,
      (hp.map (fun t => t.amount)).sum_eq]

/-- C6 witness: the specification's worked four-transaction ledger, whose
total savings is 1300, together with one reordering of it. -/
theorem total_savings_spec_witness :
    exLedger ≠ []
      ∧ (calculate_total_savings exLedger = max 0 ((exLedger.map (fun t => t.amount)).sum)
          ∧ 0 ≤ calculate_total_savings exLedger
          ∧ ∀ rows2 : List Tx, List.Perm exLedger rows2 →
              calculate_total_savings rows2 = calculate_total_savings exLedger) :=
  ⟨by decide, total_savings_spec exLedger (by decide)⟩

/-- C8: whenever the target date is not strictly in the future
(`days_to_target ≤ 0`), `plan_savings_goal` returns the error dictionary
`{"error": "Target date is in the past"}` as an ordinary result value —
the function's return type carries the error, nothing is raised. -/
theorem planning_error_is_result (goal : ℚ) (days : ℤ) (hist : List MonthlyRow)
    (h : days ≤ 0) :
    plan_savings_goal goal days hist = PlanResult.error "Target date is in the past" := by
  unfold plan_savings_goal
  rw [if_pos h]

/-- C8 witness: a target date 5 days in the past. -/
theorem planning_error_is_result_witness :
    plan_savings_goal 1200 (-5) exMonthly = PlanResult.error "Target date is in the past" :=
  planning_error_is_result 1200 (-5) exMonthly (by decide)

/-- C2: for every goal amount, target date strictly in the future and
non-empty history, `plan_savings_goal` returns the plan dictionary with
`months_to_target = days / 30.44` (not rounded),
`required_monthly_savings = goal / months_to_target`,
`achievable = (required ≤ mean historical net_cashflow)`, and an
`updated_cashflow` of exactly `⌊months_to_target⌋` rows, each with
expenses equal to the historical average expenses plus the required
savings and net equal to average income minus those increased expenses. -/
theorem plan_savings_goal_spec (goal : ℚ) (days : ℤ) (hist : List MonthlyRow)
    (hd : 0 < days) (hh : hist ≠ []) :
    ∃ p : SavingsPlan,
      plan_savings_goal goal days hist = PlanResult.ok p
        ∧ p.months_to_target = (days : ℚ) / (3044 / 100)
        ∧ p.required_monthly_savings = goal / ((days : ℚ) / (3044 / 100))
        ∧ p.achievable
            = decide (goal / ((days : ℚ) / (3044 / 100))
                ≤ mean (hist.map (fun r => r.net_cashflow)))
        ∧ p.updated_cashflow.length = Int.toNat ⌊(days : ℚ) / (3044 / 100)⌋
        ∧ ∀ r ∈ p.updated_cashflow,
            r.income = mean (hist.map (fun r2 => r2.income))
              ∧ r.expenses = mean (hist.map (fun r2 => r2.expenses))
                  + goal / ((days : ℚ) / (3044 / 100))
              ∧ r.net_cashflow = mean (hist.map (fun r2 => r2.income))
                  - (mean (hist.map (fun r2 => r2.expenses))
                      + goal / ((days : ℚ) / (3044 / 100))) := by
  have hnd : ¬ days ≤ 0 := not_le.mpr hd
  simp only [plan_savings_goal]
  rw [if_neg hnd]
  refine ⟨_, rfl, rfl, rfl, rfl, ?_, ?_⟩
  · simp only [project_future_cashflow]
    rw [if_neg hh]
    simp
  · intro r hr
    simp only [project_future_cashflow] at hr
    rw [if_neg hh] at hr
    rcases List.mem_map.mp hr with ⟨i, _, hi⟩
    subst hi
    exact ⟨rfl, rfl, rfl⟩

/-- C2 witness: a 1200 goal due in 61 days against the example history
(two floor months of projection). -/
theorem plan_savings_goal_spec_witness :
    ∃ p : SavingsPlan,
      plan_savings_goal 1200 61 exMonthly = PlanResult.ok p
        ∧ p.months_to_target = ((61 : ℤ) : ℚ) / (3044 / 100)
        ∧ p.required_monthly_savings = 1200 / (((61 : ℤ) : ℚ) / (3044 / 100))
        ∧ p.achievable
            = decide (1200 / (((61 : ℤ) : ℚ) / (3044 / 100))
                ≤ mean (exMonthly.map (fun r => r.net_cashflow)))
        ∧ p.updated_cashflow.length = Int.toNat ⌊((61 : ℤ) : ℚ) / (3044 / 100)⌋
        ∧ ∀ r ∈ p.updated_cashflow,
            r.income = mean (exMonthly.map (fun r2 => r2.income))
              ∧ r.expenses = mean (exMonthly.map (fun r2 => r2.expenses))
                  + 1200 / (((61 : ℤ) : ℚ) / (3044 / 100))
              ∧ r.net_cashflow = mean (exMonthly.map (fun r2 => r2.income))
                  - (mean (exMonthly.map (fun r2 => r2.expenses))
                      + 1200 / (((61 : ℤ) : ℚ) / (3044 / 100))) :=
  plan_savings_goal_spec 1200 61 exMonthly (by decide) (by decide)

/-- Mapping a constant function over `range` yields `replicate`. -/
theorem map_const_range {α : Type} (n : ℕ) (v : α) :
    (List.range n).map (fun _ => v) = List.replicate n v := by
  induction n with
  | zero => rfl
  | succ m ih =>
    rw [List.range_succ, List.map_append, ih, List.replicate_succ']
    rfl

/-- Value of `adjustedFigures` on the `decrease_spending` branch. -/
theorem adjustedFigures_dec (amt aI aE : ℚ) :
    adjustedFigures "decrease_spending" amt aI aE = (aI, aE - amt) := by
  unfold adjustedFigures
  rw [if_pos rfl]

/-- Value of `adjustedFigures` on the `increase_savings` branch. -/
theorem adjustedFigures_inc (amt aI aE : ℚ) :
    adjustedFigures "increase_savings" amt aI aE = (aI, aE + amt) := by
  unfold adjustedFigures
  rw [if_neg (by decide : ¬("increase_savings" : String) = "decrease_spending"), if_pos rfl]

/-- Value of `adjustedFigures` on every other scenario string: the `else` branch. -/
theorem adjustedFigures_other (s : String) (amt aI aE : ℚ)
    (h1 : s ≠ "decrease_spending") (h2 : s ≠ "increase_savings") :
    adjustedFigures s amt aI aE = (aI + amt / 2, aE - amt / 2) := by
  unfold adjustedFigures
  rw [if_neg h1, if_neg h2]

/-- Running sum of a constant list, in closed form. -/
theorem cumsumFrom_replicate (n : ℕ) (c : ℚ) :
    ∀ acc : ℚ, cumsumFrom acc (List.replicate n c)
      = (List.range n).map (fun i : ℕ => acc + ((i : ℚ) + 1) * c) := by
  induction n with
  | zero => intro acc; rfl
  | succ m ih =>
    intro acc
    rw [List.replicate_succ]
    show (acc + c) :: cumsumFrom (acc + c) (List.replicate m c) = _
    rw [ih (acc + c), List.range_succ_eq_map, List.map_cons, List.map_map]
    refine List.cons_eq_cons.mpr ⟨by push_cast; ring, ?_⟩
    apply List.map_congr_left
    intro i _
    simp only [Function.comp_apply]
    push_cast
    ring

/-- Zipping two maps over the same list is a single map. -/
theorem zipWith_map_same {α β γ δ : Type} (f : β → γ → δ) (g : α → β) (h : α → γ)
    (l : List α) :
    List.zipWith f (l.map g) (l.map h) = l.map (fun x => f (g x) (h x)) := by
  induction l with
  | nil => rfl
  | cons x xs ih => simp [ih]

/-- Overwriting the cumulative column keeps the row count. -/
theorem zipSet_length (rows : List WhatIfRow) :
    ∀ acc : ℚ,
      (List.zipWith (fun r c => { r with cumulative_savings := c }) rows
        (cumsumFrom acc (rows.map (fun r => r.net_cashflow)))).length = rows.length := by
  induction rows with
  | nil => intro acc; rfl
  | cons x xs ih =>
    intro acc
    simp only [List.map_cons, cumsumFrom, List.zipWith_cons_cons, List.length_cons]
    rw [ih (acc + x.net_cashflow)]

/-- Overwriting the cumulative column leaves the net column unchanged. -/
theorem zipSet_net (rows : List WhatIfRow) :
    ∀ acc : ℚ,
      (List.zipWith (fun r c => { r with cumulative_savings := c }) rows
          (cumsumFrom acc (rows.map (fun r => r.net_cashflow)))).map
          (fun r => r.net_cashflow)
        = rows.map (fun r => r.net_cashflow) := by
  induction rows with
  | nil => intro acc; rfl
  | cons x xs ih =>
    intro acc
    simp only [List.map_cons, cumsumFrom, List.zipWith_cons_cons]
    rw [ih (acc + x.net_cashflow)]

/-- After the overwrite, the cumulative column is the running sum of the
net column. -/
theorem zipSet_cum (rows : List WhatIfRow) :
    ∀ acc : ℚ,
      (List.zipWith (fun r c => { r with cumulative_savings := c }) rows
          (cumsumFrom acc (rows.map (fun r => r.net_cashflow)))).map
          (fun r => r.cumulative_savings)
        = cumsumFrom acc (rows.map (fun r => r.net_cashflow)) := by
  induction rows with
  | nil => intro acc; rfl
  | cons x xs ih =>
    intro acc
    simp only [List.map_cons, cumsumFrom, List.zipWith_cons_cons]
    rw [ih (acc + x.net_cashflow)]

/-- The function `setCumulative` keeps the row count and net column, and makes the
cumulative column the running sum of the nets. -/
theorem setCumulative_spec (rows : List WhatIfRow) :
    (setCumulative rows).length = rows.length
      ∧ (setCumulative rows).map (fun r => r.net_cashflow)
          = rows.map (fun r => r.net_cashflow)
      ∧ (setCumulative rows).map (fun r => r.cumulative_savings)
          = cumsum (rows.map (fun r => r.net_cashflow)) :=
  ⟨zipSet_length rows 0, zipSet_net rows 0, zipSet_cum rows 0⟩

/-- The what-if projection built from constant adjusted figures, in
closed form. -/
theorem setCumulative_const_base (n : ℕ) (inc exp2 : ℚ) :
    setCumulative ((List.range n).map (fun i =>
        ({ monthOffset := i + 1, income := inc, expenses := exp2,
           net_cashflow := inc - exp2, cumulative_savings := 0 } : WhatIfRow)))
      = whatIfClosedForm n inc exp2 := by
  unfold setCumulative whatIfClosedForm cumsum
  rw [List.map_map]
  have h1 : (List.range n).map
      ((fun r : WhatIfRow => r.net_cashflow) ∘ (fun i =>
        ({ monthOffset := i + 1, income := inc, expenses := exp2,
           net_cashflow := inc - exp2, cumulative_savings := 0 } : WhatIfRow)))
      = List.replicate n (inc - exp2) := map_const_range n (inc - exp2)
  rw [h1, cumsumFrom_replicate n (inc - exp2) 0,
    zipWith_map_same (fun (r : WhatIfRow) (c : ℚ) =>
      ({ r with cumulative_savings := c } : WhatIfRow))]
  apply List.map_congr_left
  intro i _
  simp only [WhatIfRow.mk.injEq, zero_add]

/-- C7: on a non-empty history and `n ≥ 1` months, the what-if projection
has `n` rows; `decrease_spending` lowers expenses by the amount,
`increase_savings` raises them by it (income unchanged in both), and
`both` moves half the amount on each side; each row's net is adjusted
income minus adjusted expenses and the cumulative column is the running
sum of the projected nets only. -/
theorem what_if_scenario_spec (hist : List MonthlyRow) (n : ℕ) (amt : ℚ)
    (hh : hist ≠ []) (hn : 1 ≤ n) :
    run_what_if_scenario hist n "decrease_spending" amt
        = whatIfClosedForm n (mean (hist.map (fun r => r.income)))
            (mean (hist.map (fun r => r.expenses)) - amt)
      ∧ run_what_if_scenario hist n "increase_savings" amt
          = whatIfClosedForm n (mean (hist.map (fun r => r.income)))
              (mean (hist.map (fun r => r.expenses)) + amt)
      ∧ run_what_if_scenario hist n "both" amt
          = whatIfClosedForm n (mean (hist.map (fun r => r.income)) + amt / 2)
              (mean (hist.map (fun r => r.expenses)) - amt / 2)
      ∧ ∀ s : String,
          (run_what_if_scenario hist n s amt).length = n
            ∧ (run_what_if_scenario hist n s amt).map (fun r => r.cumulative_savings)
                = cumsum ((run_what_if_scenario hist n s amt).map
                    (fun r => r.net_cashflow)) := by
  refine ⟨?_, ?_, ?_, ?_⟩
  · simp only [run_what_if_scenario, adjustedFigures_dec]
    exact setCumulative_const_base n _ _
  · simp only [run_what_if_scenario, adjustedFigures_inc]
    exact setCumulative_const_base n _ _
  · simp only [run_what_if_scenario]
    rw [adjustedFigures_other "both" amt _ _ (by decide) (by decide)]
    exact setCumulative_const_base n _ _
  · intro s
    constructor
    · simp only [run_what_if_scenario]
      rw [(setCumulative_spec _).1]
      simp
    · simp only [run_what_if_scenario]
      rw [(setCumulative_spec _).2.2, (setCumulative_spec _).2.1]

/-- C7 witness at the example history, two months, amount 100. -/
theorem what_if_scenario_spec_witness :
    run_what_if_scenario exMonthly 2 "decrease_spending" 100
        = whatIfClosedForm 2 (mean (exMonthly.map (fun r => r.income)))
            (mean (exMonthly.map (fun r => r.expenses)) - 100)
      ∧ run_what_if_scenario exMonthly 2 "increase_savings" 100
          = whatIfClosedForm 2 (mean (exMonthly.map (fun r => r.income)))
              (mean (exMonthly.map (fun r => r.expenses)) + 100)
      ∧ run_what_if_scenario exMonthly 2 "both" 100
          = whatIfClosedForm 2 (mean (exMonthly.map (fun r => r.income)) + 100 / 2)
              (mean (exMonthly.map (fun r => r.expenses)) - 100 / 2)
      ∧ ∀ s : String,
          (run_what_if_scenario exMonthly 2 s 100).length = 2
            ∧ (run_what_if_scenario exMonthly 2 s 100).map (fun r => r.cumulative_savings)
                = cumsum ((run_what_if_scenario exMonthly 2 s 100).map
                    (fun r => r.net_cashflow)) :=
  what_if_scenario_spec exMonthly 2 100 (by decide) (by decide)

/-- C10: `run_what_if_scenario` never rejects an unknown scenario string:
any `scenario_type` other than `decrease_spending` and `increase_savings`
falls through the trailing `else` and behaves exactly like `both`. -/
theorem unknown_scenario_behaves_as_both (hist : List MonthlyRow) (n : ℕ)
    (s : String) (amt : ℚ)
    (h1 : s ≠ "decrease_spending") (h2 : s ≠ "increase_savings") :
    run_what_if_scenario hist n s amt = run_what_if_scenario hist n "both" amt := by
  simp only [run_what_if_scenario]
  rw [adjustedFigures_other s amt _ _ h1 h2,
    adjustedFigures_other "both" amt _ _ (by decide) (by decide)]

/-- C10 witness: a scenario string the menu never produces. -/
theorem unknown_scenario_behaves_as_both_witness :
    run_what_if_scenario exMonthly 2 "unexpected" 10
      = run_what_if_scenario exMonthly 2 "both" 10 :=
  unknown_scenario_behaves_as_both exMonthly 2 "unexpected" 10 (by decide) (by decide)

/-- Half-even rounding moves a rational by at most 1/2. -/
theorem roundHalfEven_err (q : ℚ) : |(roundHalfEven q : ℚ) - q| ≤ 1 / 2 := by
  have h0 : ((⌊q⌋ : ℚ)) ≤ q := Int.floor_le q
  have h1 : q < ⌊q⌋ + 1 := Int.lt_floor_add_one q
  unfold roundHalfEven
  split_ifs with ha hb hc
  · rw [abs_le]
    constructor <;> linarith
  · push_cast
    rw [abs_le]
    constructor <;> linarith
  · have hb2 := not_lt.mp hb
    rw [abs_le]
    constructor <;> linarith
  · have ha2 := not_lt.mp ha
    push_cast
    rw [abs_le]
    constructor <;> linarith

/-- Rounding to 2 decimal places moves a rational by at most 1/200. -/
theorem round2_err (q : ℚ) : |round2 q - q| ≤ 1 / 200 := by
  have h := roundHalfEven_err (q * 100)
  unfold round2
  rw [show (roundHalfEven (q * 100) : ℚ) / 100 - q
      = ((roundHalfEven (q * 100) : ℚ) - q * 100) / 100 from by ring,
    abs_div, abs_of_pos (show (0 : ℚ) < 100 from by norm_num)]
  linarith

/-- Triangle inequality for sums over a common index list. -/
theorem abs_sum_sub_sum_le {α : Type} (l : List α) (f g : α → ℚ) :
    |(l.map f).sum - (l.map g).sum| ≤ (l.map (fun x => |f x - g x|)).sum := by
  induction l with
  | nil => simp
  | cons x xs ih =>
    simp only [List.map_cons, List.sum_cons]
    rw [show f x + (xs.map f).sum - (g x + (xs.map g).sum)
        = (f x - g x) + ((xs.map f).sum - (xs.map g).sum) from by ring]
    calc |(f x - g x) + ((xs.map f).sum - (xs.map g).sum)|
        ≤ |f x - g x| + |(xs.map f).sum - (xs.map g).sum| := abs_add _ _
      _ ≤ |f x - g x| + (xs.map (fun y => |f y - g y|)).sum := by linarith [ih]

/-- A sum of list entries bounded by `c` is at most `length * c`. -/
theorem sum_le_length_mul {α : Type} (l : List α) (h : α → ℚ) (c : ℚ)
    (hb : ∀ x ∈ l, h x ≤ c) :
    (l.map h).sum ≤ (l.length : ℚ) * c := by
  induction l with
  | nil => simp
  | cons x xs ih =>
    simp only [List.map_cons, List.sum_cons, List.length_cons]
    have hx := hb x (List.mem_cons_self x xs)
    have ih2 := ih (fun y hy => hb y (List.mem_cons_of_mem x hy))
    push_cast
    linarith

/-- Multiplication by a constant factors out of a mapped sum. -/
theorem sum_map_mul_const {α : Type} (l : List α) (f : α → ℚ) (c : ℚ) :
    (l.map (fun x => f x * c)).sum = (l.map f).sum * c := by
  induction l with
  | nil => simp
  | cons x xs ih =>
    simp only [List.map_cons, List.sum_cons, ih]
    ring

/-- Every pair produced by the group-by carries the net total of its
category, and its category occurs in the ledger. -/
theorem mem_categoryTotals (rows : List Tx) (p : String × ℚ)
    (hp : p ∈ categoryTotals rows) :
    p.2 = catSum rows p.1 ∧ p.1 ∈ (rows.map (fun t => t.category)).dedup := by
  simp only [categoryTotals] at hp
  rw [List.mem_insertionSort] at hp
  rcases List.mem_map.mp hp with ⟨c, hc, hceq⟩
  rw [← hceq]
  exact ⟨rfl, hc⟩

/-- Every category of the ledger appears in the group-by, with its net
total. -/
theorem categoryTotals_coverage (rows : List Tx) (c : String)
    (hc : c ∈ (rows.map (fun t => t.category)).dedup) :
    (c, catSum rows c) ∈ categoryTotals rows := by
  simp only [categoryTotals]
  rw [List.mem_insertionSort]
  exact List.mem_map.mpr ⟨c, hc, rfl⟩

/-- Every pair of `expenses_only` is a net-spending category reported as
its positive magnitude. -/
theorem mem_expensesOnly (rows : List Tx) (p : String × ℚ)
    (hp : p ∈ expensesOnly rows) :
    catSum rows p.1 < 0 ∧ p.2 = -(catSum rows p.1) ∧ 0 < p.2 := by
  simp only [expensesOnly] at hp
  rcases List.mem_map.mp hp with ⟨q, hq, hqeq⟩
  rcases List.mem_filter.mp hq with ⟨hqt, hqneg⟩
  have hneg : q.2 < 0 := by simpa using hqneg
  obtain ⟨hsum, _⟩ := mem_categoryTotals rows q hqt
  rw [← hqeq]
  refine ⟨hsum ▸ hneg, by rw [hsum], by simpa using hsum ▸ hneg⟩

/-- Every net-spending category of the ledger appears in
`expenses_only`. -/
theorem expensesOnly_coverage (rows : List Tx) (c : String)
    (hc : c ∈ (rows.map (fun t => t.category)).dedup)
    (hneg : catSum rows c < 0) :
    (c, -(catSum rows c)) ∈ expensesOnly rows := by
  simp only [expensesOnly]
  refine List.mem_map.mpr ⟨(c, catSum rows c), ?_, rfl⟩
  exact List.mem_filter.mpr ⟨categoryTotals_coverage rows c hc, by simpa using hneg⟩

/-- The total magnitude across `expenses_only` is positive whenever some
net-spending category exists. -/
theorem expensesOnly_total_pos (rows : List Tx) (hne : expensesOnly rows ≠ []) :
    0 < ((expensesOnly rows).map (fun p => p.2)).sum := by
  apply List.sum_pos
  · intro a ha
    rcases List.mem_map.mp ha with ⟨p, hp, hpe⟩
    rw [← hpe]
    exact (mem_expensesOnly rows p hp).2.2
  · simpa using hne

/-- The exact (pre-rounding) percentages across `expenses_only` sum to
exactly 100. -/
theorem expensesOnly_percentages_sum (rows : List Tx) (hne : expensesOnly rows ≠ []) :
    ((expensesOnly rows).map
        (fun p => p.2 / ((expensesOnly rows).map (fun p2 => p2.2)).sum * 100)).sum
      = 100 := by
  have hT : ((expensesOnly rows).map (fun p2 => p2.2)).sum ≠ 0 :=
    ne_of_gt (expensesOnly_total_pos rows hne)
  have hcongr : (expensesOnly rows).map
        (fun p => p.2 / ((expensesOnly rows).map (fun p2 => p2.2)).sum * 100)
      = (expensesOnly rows).map
        (fun p => p.2 * (100 / ((expensesOnly rows).map (fun p2 => p2.2)).sum)) := by
    apply List.map_congr_left
    intro p _
    ring
  rw [hcongr, sum_map_mul_const]
  field_simp

/-- C4: the category breakdown keeps exactly the categories with negative
net total, reporting each as its positive magnitude with percentage
`round2(magnitude / total × 100)`; it is empty iff no category has a
negative net total, and when non-empty the rounded percentages sum to 100
up to 1/200 per row. -/
theorem category_breakdown_spec (rows : List Tx) :
    (∀ r ∈ calculate_category_breakdown rows,
        catSum rows r.category < 0
          ∧ r.amount = -(catSum rows r.category)
          ∧ r.percentage
              = round2 (r.amount
                  / (((calculate_category_breakdown rows).map (fun r2 => r2.amount)).sum)
                  * 100))
      ∧ (∀ c ∈ (rows.map (fun t => t.category)).dedup,
          catSum rows c < 0 →
            ∃ r ∈ calculate_category_breakdown rows, r.category = c)
      ∧ (calculate_category_breakdown rows = []
          ↔ ∀ c ∈ rows.map (fun t => t.category), 0 ≤ catSum rows c)
      ∧ (calculate_category_breakdown rows ≠ [] →
          |((calculate_category_breakdown rows).map (fun r => r.percentage)).sum - 100|
            ≤ ((calculate_category_breakdown rows).length : ℚ) * (1 / 200)) := by
  have hbT : ((calculate_category_breakdown rows).map (fun r2 => r2.amount)).sum
      = ((expensesOnly rows).map (fun p => p.2)).sum := by
    simp only [calculate_category_breakdown]
    rw [List.map_map]
    rfl
  refine ⟨?_, ?_, ?_, ?_⟩
  · intro r hr
    simp only [calculate_category_breakdown] at hr
    rcases List.mem_map.mp hr with ⟨p, hp, hpe⟩
    obtain ⟨hneg, hamt, _⟩ := mem_expensesOnly rows p hp
    rw [← hpe]
    exact ⟨hneg, hamt, by rw [hbT]⟩
  · intro c hc hneg
    have hp := expensesOnly_coverage rows c hc hneg
    refine ⟨{ category := c, amount := -(catSum rows c),
              percentage := round2 (-(catSum rows c)
                / ((expensesOnly rows).map (fun p2 => p2.2)).sum * 100) }, ?_, rfl⟩
    simp only [calculate_category_breakdown]
    exact List.mem_map.mpr ⟨(c, -(catSum rows c)), hp, rfl⟩
  · constructor
    · intro hnil c hc
      by_contra hlt
      push_neg at hlt
      have hcd : c ∈ (rows.map (fun t => t.category)).dedup := List.mem_dedup.mpr hc
      have hp := expensesOnly_coverage rows c hcd hlt
      have : expensesOnly rows = [] := by
        have := congrArg List.length hnil
        simp only [calculate_category_breakdown, List.length_map, List.length_nil] at this
        exact List.eq_nil_of_length_eq_zero this
      rw [this] at hp
      cases hp
    · intro hall
      simp only [calculate_category_breakdown]
      rw [List.map_eq_nil_iff]
      simp only [expensesOnly]
      rw [List.map_eq_nil_iff, List.filter_eq_nil_iff]
      intro q hq
      obtain ⟨hsum, hcd⟩ := mem_categoryTotals rows q hq
      have : 0 ≤ catSum rows q.1 := hall q.1 (List.mem_dedup.mp hcd)
      simpa [hsum] using not_lt.mpr this
  · intro hne
    have hEne : expensesOnly rows ≠ [] := by
      intro hnil
      apply hne
      simp only [calculate_category_breakdown, hnil, List.map_nil]
    have hmapP : (calculate_category_breakdown rows).map (fun r => r.percentage)
        = (expensesOnly rows).map
            (fun p => round2 (p.2 / ((expensesOnly rows).map (fun p2 => p2.2)).sum * 100)) := by
      simp only [calculate_category_breakdown]
      rw [List.map_map]
      rfl
    have hlen : ((calculate_category_breakdown rows).length : ℚ)
        = ((expensesOnly rows).length : ℚ) := by
      simp [calculate_category_breakdown]
    rw [hmapP, hlen]
    have hg := expensesOnly_percentages_sum rows hEne
    have h1 := abs_sum_sub_sum_le (expensesOnly rows)
      (fun p => round2 (p.2 / ((expensesOnly rows).map (fun p2 => p2.2)).sum * 100))
      (fun p => p.2 / ((expensesOnly rows).map (fun p2 => p2.2)).sum * 100)
    rw [hg] at h1
    have h2 := sum_le_length_mul (expensesOnly rows)
      (fun p => |round2 (p.2 / ((expensesOnly rows).map (fun p2 => p2.2)).sum * 100)
        - p.2 / ((expensesOnly rows).map (fun p2 => p2.2)).sum * 100|) (1 / 200)
      (fun p _ => round2_err _)
    linarith

/-- C4 witness at the specification's worked four-transaction ledger
(categories Food and Rent are net spenders). -/
theorem category_breakdown_spec_witness :
    (∀ r ∈ calculate_category_breakdown exLedger,
        catSum exLedger r.category < 0
          ∧ r.amount = -(catSum exLedger r.category)
          ∧ r.percentage
              = round2 (r.amount
                  / (((calculate_category_breakdown exLedger).map (fun r2 => r2.amount)).sum)
                  * 100))
      ∧ (∀ c ∈ (exLedger.map (fun t => t.category)).dedup,
          catSum exLedger c < 0 →
            ∃ r ∈ calculate_category_breakdown exLedger, r.category = c)
      ∧ (calculate_category_breakdown exLedger = []
          ↔ ∀ c ∈ exLedger.map (fun t => t.category), 0 ≤ catSum exLedger c)
      ∧ (calculate_category_breakdown exLedger ≠ [] →
          |((calculate_category_breakdown exLedger).map (fun r => r.percentage)).sum - 100|
            ≤ ((calculate_category_breakdown exLedger).length : ℚ) * (1 / 200)) :=
  category_breakdown_spec exLedger

/-- If some entry of the alias list has no alias among the columns and no
viable fallback, the resolution loop stops with the missing-column error
of such an entry (the first failing one). -/
theorem resolveGo_error_of_fail (cols : List String) (fallback : String → String) :
    ∀ entries : List (String × List String),
      (∃ p ∈ entries, aliasFail cols fallback p) →
      ∃ p ∈ entries, aliasFail cols fallback p
        ∧ resolveGo cols fallback entries
            = Except.error ("Required column '" ++ p.1 ++ "' is missing.") := by
  intro entries
  induction entries with
  | nil =>
    rintro ⟨p, hp, _⟩
    cases hp
  | cons hd rest ih =>
    rintro ⟨p, hp, hfail⟩
    obtain ⟨field, aliases⟩ := hd
    cases hfind : aliases.find? (fun a => decide (a ∈ cols)) with
    | some al =>
      have hmem : al ∈ aliases := List.mem_of_find?_eq_some hfind
      have hal : al ∈ cols := by
        have := List.find?_some hfind
        simpa using this
      have hpr : p ∈ rest := by
        rcases List.mem_cons.mp hp with h | h
        · exfalso
          rw [h] at hfail
          exact hfail.1 al hmem hal
        · exact h
      obtain ⟨q, hq, hqf, hqe⟩ := ih ⟨p, hpr, hfail⟩
      refine ⟨q, List.mem_cons_of_mem _ hq, hqf, ?_⟩
      simp only [resolveGo, hfind, hqe]
    | none =>
      by_cases hv : viableFallback cols (fallback field)
      · have hpr : p ∈ rest := by
          rcases List.mem_cons.mp hp with h | h
          · exfalso
            rw [h] at hfail
            exact hfail.2 hv
          · exact h
        obtain ⟨q, hq, hqf, hqe⟩ := ih ⟨p, hpr, hfail⟩
        refine ⟨q, List.mem_cons_of_mem _ hq, hqf, ?_⟩
        simp only [resolveGo, hfind, hqe, if_pos hv]
      · refine ⟨(field, aliases), List.mem_cons_self _ _, ⟨?_, hv⟩, ?_⟩
        · intro a ha hain
          have := List.find?_eq_none.mp hfind a ha
          simp only [decide_eq_true_eq] at this
          exact this hain
        · simp only [resolveGo, hfind, if_neg hv]

/-- C9: whenever some required field (date, category or amount) matches
no alias among the table's normalized columns and the user-supplied
fallback name for it is empty or not a column, the loader fails with the
missing-column error of a field in exactly that situation, and the
load-then-aggregate pipeline yields that error instead of any
aggregate. -/
theorem loader_missing_column (rawCols : List String) (fallback : String → String)
    (rows : List Tx)
    (h : ∃ p ∈ column_aliases, aliasFail (normalizeCols rawCols) fallback p) :
    ∃ p ∈ column_aliases,
      aliasFail (normalizeCols rawCols) fallback p
        ∧ resolveColumns (normalizeCols rawCols) fallback
            = Except.error ("Required column '" ++ p.1 ++ "' is missing.")
        ∧ load_and_aggregate rawCols fallback rows
            = Except.error ("Required column '" ++ p.1 ++ "' is missing.") := by
  obtain ⟨p, hp, hf, he⟩ :=
    resolveGo_error_of_fail (normalizeCols rawCols) fallback column_aliases h
  refine ⟨p, hp, hf, he, ?_⟩
  simp only [load_and_aggregate, resolveColumns, he]

/-- C9 witness: a table whose normalized columns are `date` and
`category` only, with an empty fallback answer — the `amount` field has
no alias match, so the pipeline fails before aggregation. -/
theorem loader_missing_column_witness :
    (∃ p ∈ column_aliases, aliasFail (normalizeCols ["Date", "Category"]) (fun _ => "") p)
      ∧ ∃ p ∈ column_aliases,
          aliasFail (normalizeCols ["Date", "Category"]) (fun _ => "") p
            ∧ resolveColumns (normalizeCols ["Date", "Category"]) (fun _ => "")
                = Except.error ("Required column '" ++ p.1 ++ "' is missing.")
            ∧ load_and_aggregate ["Date", "Category"] (fun _ => "") exLedger
                = Except.error ("Required column '" ++ p.1 ++ "' is missing.") :=
  ⟨by decide, loader_missing_column ["Date", "Category"] (fun _ => "") exLedger (by decide)⟩

end Cashflow
